import Mathlib

/-!
Verification development for the week7 personal-finance tracker
(`assignment7.py`): a shallow embedding of the `DataHandler` class, the
`parse_date` utility and the two-file persistence layer, together with
theorems about the specified behaviour of validation, totals, deletion
and load/save.

Amounts are modelled as rationals; strings as Lean `String`s (the model
restricts whitespace handling to the ASCII whitespace characters).  The
current system date, used by `parse_date` on blank input, is supplied as
an explicit `today` parameter since it is environmental.  Exceptions are
modelled with `Except`: in the source every `raise` happens before any
mutation of the record lists, so an `Except.error` result corresponds to
an unchanged in-memory state.
-/

namespace Assignment7

/-- The ASCII whitespace characters stripped by Python `str.strip()`
(Python additionally strips other Unicode whitespace, which this model
does not cover). -/
def pyIsSpace (c : Char) : Bool :=
  c == ' ' || c == '\t' || c == '\n' || c == '\r' || c == '\x0b' || c == '\x0c'

/-- Python `str.strip()` on ASCII whitespace. -/
def pyStrip (s : String) : String :=
  String.mk (((s.data.dropWhile pyIsSpace).reverse.dropWhile pyIsSpace).reverse)

/-- Python `str.split(sep)` for a single-character separator `c`:
splitting the empty string gives `[[]]`, and separators at the ends
produce empty parts, exactly as in Python. -/
def splitOnChar (c : Char) : List Char → List (List Char)
  | [] => [[]]
  | x :: xs =>
    if x == c then [] :: splitOnChar c xs
    else
      match splitOnChar c xs with
      | [] => [[x]]
      | y :: ys => (x :: y) :: ys

def allDigits (l : List Char) : Bool := l.all Char.isDigit

/-- Numeric value of a digit string, most significant digit first. -/
def digitsVal (l : List Char) : Nat :=
  l.foldl (fun a c => 10 * a + (c.toNat - 48)) 0

/-- Gregorian leap-year rule used by `datetime`. -/
def isLeapYear (y : Nat) : Bool :=
  y % 4 == 0 && (y % 100 != 0 || y % 400 == 0)

/-- Number of days of month `m` of year `y`, as validated by
`datetime`'s constructor. -/
def daysInMonth (y m : Nat) : Nat :=
  if m == 2 then (if isLeapYear y then 29 else 28)
  else if m == 4 || m == 6 || m == 9 || m == 11 then 30
  else 31

/-- The month field accepted by `strptime`'s `%m` directive: CPython
compiles `%m` to the pattern `1[0-2]|0[1-9]|[1-9]`, i.e. one or two
digits with value 1..12. -/
def monthTok (m : List Char) : Bool :=
  allDigits m && (m.length == 1 || m.length == 2) &&
    decide (1 ≤ digitsVal m) && decide (digitsVal m ≤ 12)

/-- The day field accepted by `strptime`'s `%d` directive: CPython
compiles `%d` to the pattern `3[01]|[12]\d|0[1-9]|[1-9]`, i.e. one or
two digits with value 1..31 (day-of-month validity against the calendar
is checked afterwards by the `datetime` constructor). -/
def dayTok (d : List Char) : Bool :=
  allDigits d && (d.length == 1 || d.length == 2) &&
    decide (1 ≤ digitsVal d) && decide (digitsVal d ≤ 31)

/-- `datetime.strptime(s, "%Y-%m-%d")` succeeds on `s`: an exactly
four-digit year, flexible-width month and day fields as accepted by the
`%m`/`%d` patterns, full match of the input, and the resulting numbers
accepted by the `datetime` constructor (year at least `MINYEAR = 1`, day
within the month). -/
def strptimeYmd (s : List Char) : Bool :=
  match splitOnChar '-' s with
  | [y, m, d] =>
    allDigits y && (y.length == 4) && decide (1 ≤ digitsVal y) &&
    monthTok m && dayTok d &&
    decide (digitsVal d ≤ daysInMonth (digitsVal y) (digitsVal m))
  | _ => false

def dateErrMsg : String := "Date format should be %Y-%m-%d"

/-- `parse_date` from assignment7.py.  `today` stands for
`datetime.today().strftime("%Y-%m-%d")`, the current system-local date
rendered as `YYYY-MM-DD`, passed as a parameter because it is
environmental. -/
def parse_date (today : String) (text : String) : Except String String :=
  let t := pyStrip text
  if t = "" then Except.ok today
  else if strptimeYmd t.data then Except.ok t
  else Except.error dateErrMsg

/-- An income record: `{"source": ..., "amount": ...}`. -/
structure IncomeRecord where
  source : String
  amount : ℚ
deriving DecidableEq, Repr

/-- An expense record:
`{"description": ..., "category": ..., "amount": ..., "date": ...}`. -/
structure ExpenseRecord where
  description : String
  category : String
  amount : ℚ
  date : String
deriving DecidableEq, Repr

/-- The in-memory state of a `DataHandler`, fields in the order the
constructor assigns them. -/
structure DataHandler where
  autosave : Bool
  incomes : List IncomeRecord
  expenses : List ExpenseRecord
  files_loaded : Bool
deriving DecidableEq, Repr

/-- `DataHandler.add_income`: the two validation checks, in source
order, precede the append. -/
def add_income (dh : DataHandler) (source : String) (amount : ℚ) :
    Except String DataHandler :=
  if amount < 0 then Except.error "Income amount can\x27t be negative"
  else if pyStrip source = "" then Except.error "Income source must be non-empty"
  else Except.ok { dh with incomes := dh.incomes ++ [{ source := source, amount := amount }] }

/-- `DataHandler.add_expense`: category, description and amount checks in
source order, then `parse_date`, then the append (the stored `date` is
the parsed result). -/
def add_expense (today : String) (dh : DataHandler)
    (description category : String) (amount : ℚ) (date : String) :
    Except String DataHandler :=
  if pyStrip category = "" then Except.error "Category must be non-empty"
  else if pyStrip description = "" then Except.error "Description must be non-empty"
  else if amount < 0 then Except.error "Expense amount can\x27t be negative"
  else
    match parse_date today date with
    | Except.error e => Except.error e
    | Except.ok d =>
      Except.ok { dh with expenses := dh.expenses ++
        [{ description := description, category := category, amount := amount, date := d }] }

/-- Python `del xs[i]`: a negative index counts from the end; an index
out of the range `-len(xs) .. len(xs)-1` raises `IndexError`. -/
def pyDelete {α : Type} (xs : List α) (i : Int) : Except String (List α) :=
  let n : Int := xs.length
  let j : Int := if i < 0 then i + n else i
  if 0 ≤ j ∧ j < n then Except.ok (xs.take j.toNat ++ xs.drop (j.toNat + 1))
  else Except.error "IndexError: list assignment index out of range"

/-- `DataHandler.delete_income`. -/
def delete_income (dh : DataHandler) (i : Int) : Except String DataHandler :=
  (pyDelete dh.incomes i).map (fun l => { dh with incomes := l })

/-- `DataHandler.delete_expense`. -/
def delete_expense (dh : DataHandler) (i : Int) : Except String DataHandler :=
  (pyDelete dh.expenses i).map (fun l => { dh with expenses := l })

/-- `DataHandler.total_income`: Python `sum` is a left fold starting
from 0. -/
def total_income (dh : DataHandler) : ℚ :=
  dh.incomes.foldl (fun acc r => acc + r.amount) 0

/-- `DataHandler.total_expenses`. -/
def total_expenses (dh : DataHandler) : ℚ :=
  dh.expenses.foldl (fun acc r => acc + r.amount) 0

/-- `DataHandler.balance`. -/
def balance (dh : DataHandler) : ℚ := total_income dh - total_expenses dh

/-- Python `float()` on the plain decimal strings this program writes
and reads: optional surrounding whitespace, optional sign, digits with
at most one decimal point and at least one digit.  (Python `float()`
additionally accepts exponents, underscores, `inf` and `nan`; none of
those occur in this program's files and the claims do not depend on
them.) -/
def pyFloat (s : String) : Except String ℚ :=
  let t := pyStrip s
  let signBody : ℚ × List Char :=
    match t.data with
    | '-' :: rest => (-1, rest)
    | '+' :: rest => (1, rest)
    | l => (1, l)
  match splitOnChar '.' signBody.2 with
  | [ip] =>
    if allDigits ip && decide (1 ≤ ip.length) then
      Except.ok (signBody.1 * (digitsVal ip : ℚ))
    else Except.error "ValueError: could not convert string to float"
  | [ip, fp] =>
    if allDigits ip && allDigits fp && decide (1 ≤ ip.length + fp.length) then
      Except.ok (signBody.1 * ((digitsVal ip : ℚ) + (digitsVal fp : ℚ) / (10 ^ fp.length)))
    else Except.error "ValueError: could not convert string to float"
  | _ => Except.error "ValueError: could not convert string to float"

/-- One of the two named list fields of the structured (JSON) file: the
key can be absent (lookup raises `KeyError`), present with value `null`
(falsy, so `data[key] or []` yields the empty list), or present with a
list of records. -/
inductive JField (α : Type) where
  | absent
  | null
  | val (xs : List α)
deriving DecidableEq

/-- Reading one list field: models `data[key] or []`. `KeyError` on an
absent key is NOT a `json.JSONDecodeError`, so it is not absorbed by the
fallback in `load_from_file`. -/
def JField.load {α : Type} : JField α → Except String (List α)
  | .absent => Except.error "KeyError"
  | .null => Except.ok []
  | .val xs => Except.ok xs

/-- A successfully decoded structured file: a JSON object with the two
(possibly absent or null) list fields. -/
structure JsonFile where
  incomes : JField IncomeRecord
  expenses : JField ExpenseRecord
deriving DecidableEq

/-- The on-disk JSON file: either text that `json.load` rejects
(`JSONDecodeError`) or a decoded object. -/
inductive JsonDoc where
  | malformed
  | doc (f : JsonFile)
deriving DecidableEq

/-- The persisted state: `finance_data.json` and `finance_data.txt`,
each either missing (`none`, so `open` raises `FileNotFoundError`) or
present; the text file is a list of lines. -/
structure Disk where
  json : Option JsonDoc
  txt : Option (List String)

/-- The JSON branch of `load_from_file`: `data["expenses"] or []` is
evaluated first, then `data["incomes"] or []`, mirroring the source
order. -/
def load_json (f : JsonFile) :
    Except String (List IncomeRecord × List ExpenseRecord) :=
  match f.expenses.load with
  | Except.error e => Except.error e
  | Except.ok es =>
    match f.incomes.load with
    | Except.error e => Except.error e
    | Except.ok inc => Except.ok (inc, es)

/-- Dispatch on `line_parts`: the leading tag selects the record kind,
the field count is checked for the tag, the amount is converted with
`float()`, and the record is appended.  `l` is the stripped line, used
only in the error messages.  (`splitOnChar` never returns `[]`, so the
first arm is unreachable.) -/
def loadTxtParts (acc : List IncomeRecord × List ExpenseRecord) (l : String) :
    List (List Char) → Except String (List IncomeRecord × List ExpenseRecord)
  | [] => Except.error "unreachable"
  | tag :: restParts =>
    if tag = "Income".data then
      match restParts with
      | [src, amt] =>
        match pyFloat (String.mk amt) with
        | Except.error e => Except.error e
        | Except.ok a => Except.ok (acc.1 ++ [{ source := String.mk src, amount := a }], acc.2)
      | _ => Except.error ("Bad Income line: " ++ l)
    else if tag = "Expense".data then
      match restParts with
      | [de, ca, amt, da] =>
        match pyFloat (String.mk amt) with
        | Except.error e => Except.error e
        | Except.ok a => Except.ok (acc.1, acc.2 ++
            [{ description := String.mk de, category := String.mk ca,
               amount := a, date := String.mk da }])
      | _ => Except.error ("Bad Expense line: " ++ l)
    else Except.error ("Unknown line format: " ++ l)

/-- Processing one line of `finance_data.txt`: strip, skip blank lines,
split on `|`, then dispatch on the parts. -/
def loadTxtLine (acc : List IncomeRecord × List ExpenseRecord) (line : String) :
    Except String (List IncomeRecord × List ExpenseRecord) :=
  let l := pyStrip line
  if l = "" then Except.ok acc
  else loadTxtParts acc l (splitOnChar '|' l.data)

/-- The fallback branch of `load_from_file`: fold over the lines of the
text file, starting from the (still empty) record lists. -/
def loadTxt (lines : List String) :
    Except String (List IncomeRecord × List ExpenseRecord) :=
  lines.foldlM loadTxtLine ([], [])

/-- `DataHandler.load_from_file`: try the JSON file first; a missing
(`FileNotFoundError`) or undecodable (`JSONDecodeError`) JSON file falls
back to the text file; any error arising after `json.load` succeeded
(such as `KeyError` on an absent field) is not absorbed by the fallback
and propagates. -/
def load_from_file (disk : Disk) :
    Except String (List IncomeRecord × List ExpenseRecord) :=
  match disk.json with
  | some (JsonDoc.doc f) => load_json f
  | some JsonDoc.malformed =>
    match disk.txt with
    | none => Except.error "FileNotFoundError: finance_data.txt"
    | some lines => loadTxt lines
  | none =>
    match disk.txt with
    | none => Except.error "FileNotFoundError: finance_data.txt"
    | some lines => loadTxt lines

/-- `DataHandler.__init__`: attempt `load_from_file`; on any exception
reset both sequences to empty and clear `files_loaded`, so construction
never raises to the caller. -/
def DataHandler.init (disk : Disk) (autosave : Bool) : DataHandler :=
  match load_from_file disk with
  | Except.ok (inc, ex) =>
    { autosave := autosave, incomes := inc, expenses := ex, files_loaded := true }
  | Except.error _ =>
    { autosave := autosave, incomes := [], expenses := [], files_loaded := false }

/-- The structured representation written by `save_to_file`: both lists,
present, under their named fields. -/
def save_json (dh : DataHandler) : JsonFile :=
  { incomes := JField.val dh.incomes, expenses := JField.val dh.expenses }

/-- One `Income|<source>|<amount>` line of the text file.  `render`
stands for Python's float-to-string formatting inside the f-string,
which this development abstracts. -/
def incomeLine (render : ℚ → String) (r : IncomeRecord) : String :=
  "Income|" ++ r.source ++ "|" ++ render r.amount

/-- One `Expense|<description>|<category>|<amount>|<date>` line of the
text file. -/
def expenseLine (render : ℚ → String) (r : ExpenseRecord) : String :=
  "Expense|" ++ r.description ++ "|" ++ r.category ++ "|" ++ render r.amount ++ "|" ++ r.date

/-- The text-file mirror written by `save_to_file`: all expense lines,
then all income lines. -/
def save_txt (render : ℚ → String) (dh : DataHandler) : List String :=
  dh.expenses.map (expenseLine render) ++ dh.incomes.map (incomeLine render)

/-- `DataHandler.save_to_file`: a no-op when `autosave` is off (the unit
tests' mode), otherwise a full rewrite of both files. -/
def save_to_file (render : ℚ → String) (dh : DataHandler) (disk : Disk) : Disk :=
  if dh.autosave then
    { json := some (JsonDoc.doc (save_json dh)), txt := some (save_txt render dh) }
  else disk

/-- Spec-modelled: the claim's "matches YYYY-MM-DD digit grouping
(4-2-2 digits)" — exactly three all-digit groups of widths 4, 2, 2. -/
def matches422 (s : String) : Bool :=
  match splitOnChar '-' s.data with
  | [y, m, d] =>
    allDigits y && (y.length == 4) && allDigits m && (m.length == 2) &&
      allDigits d && (d.length == 2)
  | _ => false

/-- The record-level invariant for income records claimed by the spec:
non-negative amount and a source that is non-blank after trimming. -/
def incomeOK (r : IncomeRecord) : Bool :=
  decide (0 ≤ r.amount) && (pyStrip r.source != "")

/-- The record-level invariant for expense records claimed by the spec:
non-negative amount, non-blank description and category, and a date that
parses as a valid calendar date. -/
def expenseOK (r : ExpenseRecord) : Bool :=
  decide (0 ≤ r.amount) && (pyStrip r.description != "") &&
    (pyStrip r.category != "") && strptimeYmd r.date.data

/-- The spec's ledger invariant: every record of both sequences is
well-formed. -/
def ledgerOK (dh : DataHandler) : Bool :=
  dh.incomes.all incomeOK && dh.expenses.all expenseOK

/-- Declarative description of the strings accepted by
`strptime(·, "%Y-%m-%d")`: a decomposition `y-m-d` into digit groups,
the year exactly four digits and at least 1, the month one or two digits
valued 1..12, the day one or two digits valued within the month. -/
def Ymd (s : List Char) : Prop :=
  ∃ y m d : List Char,
    s = y ++ '-' :: (m ++ '-' :: d) ∧
    allDigits y = true ∧ y.length = 4 ∧ 1 ≤ digitsVal y ∧
    allDigits m = true ∧ (m.length = 1 ∨ m.length = 2) ∧
      1 ≤ digitsVal m ∧ digitsVal m ≤ 12 ∧
    allDigits d = true ∧ (d.length = 1 ∨ d.length = 2) ∧
      1 ≤ digitsVal d ∧ digitsVal d ≤ 31 ∧
      digitsVal d ≤ daysInMonth (digitsVal y) (digitsVal m)

/-! ## Helper lemmas -/

/-- A left fold accumulating amounts equals the starting value plus the
sum of the mapped list. -/
theorem foldl_add_eq_sum {α : Type} (f : α → ℚ) (l : List α) (init : ℚ) :
    l.foldl (fun acc r => acc + f r) init = init + (l.map f).sum := by
  induction l generalizing init with
  | nil => simp
  | cons x xs ih =>
    simp only [List.foldl_cons, List.map_cons, List.sum_cons, ih, add_assoc]

/-- `List.foldlM` over `Except` distributes over append. -/
theorem foldlM_except_append {α β : Type} (f : β → α → Except String β)
    (l l' : List α) (b : β) :
    (l ++ l').foldlM f b =
      match l.foldlM f b with
      | Except.error e => Except.error e
      | Except.ok b2 => l'.foldlM f b2 := by
  induction l generalizing b with
  | nil => rfl
  | cons x xs ih =>
    simp only [List.cons_append, List.foldlM_cons]
    cases hfx : f b x with
    | error e => rfl
    | ok b2 => exact ih b2

/-- Full characterisation of `pyDelete` (Python `del xs[i]`): a
non-negative in-range index deletes at that position, an in-range
negative index counts from the end, and everything else raises
`IndexError`. -/
theorem pyDelete_spec {α : Type} (xs : List α) (i : Int) :
    (0 ≤ i → i < xs.length →
      pyDelete xs i = Except.ok (xs.take i.toNat ++ xs.drop (i.toNat + 1))) ∧
    (i < 0 → 0 ≤ i + xs.length →
      pyDelete xs i =
        Except.ok (xs.take (i + xs.length).toNat ++ xs.drop ((i + xs.length).toNat + 1))) ∧
    ((i + xs.length < 0 ∨ (xs.length : Int) ≤ i) →
      pyDelete xs i = Except.error "IndexError: list assignment index out of range") := by
  refine ⟨?_, ?_, ?_⟩ <;> intro h1 <;> simp only [pyDelete]
  · intro h2
    rw [if_neg (show ¬ i < 0 by omega), if_pos (show 0 ≤ i ∧ i < (xs.length : Int) by omega)]
  · intro h2
    rw [if_pos h1, if_pos (show 0 ≤ i + (xs.length : Int) ∧
      i + (xs.length : Int) < (xs.length : Int) by omega)]
  · rcases h1 with h | h
    · rw [if_pos (show i < 0 by omega), if_neg (show ¬ (0 ≤ i + (xs.length : Int) ∧
        i + (xs.length : Int) < (xs.length : Int)) by omega)]
    · rw [if_neg (show ¬ i < 0 by omega), if_neg (show ¬ (0 ≤ i ∧
        i < (xs.length : Int)) by omega)]

/-- Loading from the disk state that `save_to_file` just wrote (with
`autosave` on) restores exactly the saved sequences: the JSON file is
present and decodable, so the JSON branch is taken and both `val`
fields load verbatim. -/
theorem init_save_eq (dh : DataHandler) (render : ℚ → String) (disk : Disk)
    (auto : Bool) (h : dh.autosave = true) :
    DataHandler.init (save_to_file render dh disk) auto =
      { autosave := auto, incomes := dh.incomes, expenses := dh.expenses,
        files_loaded := true } := by
  simp [save_to_file, h, DataHandler.init, load_from_file, save_json,
    load_json, JField.load]

/-- A successful `parse_date` returns either `today` (blank input) or
the stripped input, which `strptime` accepts. -/
theorem parse_date_ok_cases (today text d : String)
    (h : parse_date today text = Except.ok d) :
    d = today ∨ (d = pyStrip text ∧ strptimeYmd d.data = true) := by
  unfold parse_date at h
  by_cases h1 : pyStrip text = ""
  · simp [h1] at h
    exact Or.inl h.symm
  · by_cases h2 : strptimeYmd (pyStrip text).data = true
    · simp [h1, h2] at h
      exact Or.inr ⟨h.symm, h ▸ h2⟩
    · simp [h1, h2] at h

/-- `splitOnChar` never returns the empty list of parts. -/
theorem splitOnChar_ne_nil (c : Char) (l : List Char) : splitOnChar c l ≠ [] := by
  cases l with
  | nil => simp [splitOnChar]
  | cons x xs =>
    simp only [splitOnChar]
    split
    · simp
    · split <;> simp

/-- Splitting a list that does not contain the separator yields the
single part. -/
theorem splitOnChar_not_mem (c : Char) (l : List Char) (h : c ∉ l) :
    splitOnChar c l = [l] := by
  induction l with
  | nil => rfl
  | cons x xs ih =>
    simp only [List.mem_cons, not_or] at h
    have hx : (x == c) = false := by
      simp only [beq_eq_false_iff_ne, ne_eq]
      exact fun e => h.1 e.symm
    simp only [splitOnChar, hx, Bool.false_eq_true, if_false]
    rw [ih h.2]

/-- Splitting past a leading separator-free part peels it off. -/
theorem splitOnChar_append (c : Char) (y rest : List Char) (h : c ∉ y) :
    splitOnChar c (y ++ c :: rest) = y :: splitOnChar c rest := by
  induction y with
  | nil =>
    simp [splitOnChar]
  | cons x xs ih =>
    simp only [List.mem_cons, not_or] at h
    have hx : (x == c) = false := by
      simp only [beq_eq_false_iff_ne, ne_eq]
      exact fun e => h.1 e.symm
    have ih2 := ih h.2
    simp only [List.cons_append, splitOnChar, hx, Bool.false_eq_true, if_false,
      List.append_eq]
    rw [ih2]

/-- Any list either contains no separator, or decomposes as a
separator-free first part, the separator, and a remainder on which the
split recurses. -/
theorem splitOnChar_shape (c : Char) (l : List Char) :
    (∃ p, splitOnChar c l = [p] ∧ l = p ∧ c ∉ p) ∨
    (∃ p rest, splitOnChar c l = p :: splitOnChar c rest ∧
      l = p ++ c :: rest ∧ c ∉ p) := by
  induction l with
  | nil => exact Or.inl ⟨[], rfl, rfl, by simp⟩
  | cons x xs ih =>
    by_cases hx : x = c
    · subst hx
      exact Or.inr ⟨[], xs, by simp [splitOnChar], by simp, by simp⟩
    · have hxb : (x == c) = false := by
        simp only [beq_eq_false_iff_ne, ne_eq]; exact hx
      rcases ih with ⟨p, hsp, hl, hnp⟩ | ⟨p, rest, hsp, hl, hnp⟩
      · refine Or.inl ⟨x :: p, ?_, by rw [hl], ?_⟩
        · simp only [splitOnChar, hxb, Bool.false_eq_true, if_false]
          rw [hsp]
        · simp only [List.mem_cons, not_or]
          exact ⟨fun e => hx e.symm, hnp⟩
      · refine Or.inr ⟨x :: p, rest, ?_, by simp [hl], ?_⟩
        · simp only [splitOnChar, hxb, Bool.false_eq_true, if_false]
          rw [hsp]
        · simp only [List.mem_cons, not_or]
          exact ⟨fun e => hx e.symm, hnp⟩

/-- A three-part split recovers the original list. -/
theorem splitOnChar_three (c : Char) (s y m d : List Char)
    (h : splitOnChar c s = [y, m, d]) :
    s = y ++ c :: (m ++ c :: d) ∧ c ∉ y ∧ c ∉ m ∧ c ∉ d := by
  rcases splitOnChar_shape c s with ⟨p, hsp, rfl, hnp⟩ | ⟨p, rest, hsp, rfl, hnp⟩
  · rw [hsp] at h
    simp at h
  · rw [hsp] at h
    simp only [List.cons.injEq] at h
    obtain ⟨rfl, h2⟩ := h
    rcases splitOnChar_shape c rest with ⟨q, hq, rfl, hnq⟩ | ⟨q, rest2, hq, rfl, hnq⟩
    · rw [hq] at h2
      simp at h2
    · rw [hq] at h2
      simp only [List.cons.injEq] at h2
      obtain ⟨rfl, h3⟩ := h2
      rcases splitOnChar_shape c rest2 with ⟨r, hr, rfl, hnr⟩ | ⟨r, rest3, hr, rfl, hnr⟩
      · rw [hr] at h3
        simp only [List.cons.injEq] at h3
        obtain ⟨rfl, -⟩ := h3
        exact ⟨rfl, hnp, hnq, hnr⟩
      · rw [hr] at h3
        simp only [List.cons.injEq] at h3
        exact absurd h3.2 (splitOnChar_ne_nil c rest3)

/-- Splitting the canonical `y-m-d` decomposition yields the three
parts. -/
theorem splitOnChar_of_decomp (c : Char) (y m d : List Char)
    (hy : c ∉ y) (hm : c ∉ m) (hd : c ∉ d) :
    splitOnChar c (y ++ c :: (m ++ c :: d)) = [y, m, d] := by
  rw [splitOnChar_append c y _ hy, splitOnChar_append c m _ hm,
    splitOnChar_not_mem c d hd]

/-- A digit group cannot contain the dash separator. -/
theorem dash_not_mem_of_allDigits {l : List Char} (h : allDigits l = true) :
    ('-' : Char) ∉ l := by
  intro hm
  have h2 : ('-' : Char).isDigit = true := List.all_eq_true.mp h _ hm
  simp at h2

/-- The executable `strptime` acceptor agrees with the declarative
`Ymd` description. -/
theorem strptimeYmd_iff_Ymd (s : List Char) : strptimeYmd s = true ↔ Ymd s := by
  constructor
  · intro h
    unfold strptimeYmd at h
    split at h
    · rename_i y m d hsp
      obtain ⟨hs, -, -, -⟩ := splitOnChar_three '-' s y m d hsp
      simp only [monthTok, dayTok, Bool.and_eq_true, beq_iff_eq,
        decide_eq_true_eq, Bool.or_eq_true] at h
      obtain ⟨⟨⟨⟨⟨hyd, hyl⟩, hy1⟩, ⟨⟨⟨hmd, hml⟩, hm1⟩, hm12⟩⟩,
        ⟨⟨⟨hdd, hdl⟩, hd1⟩, hd31⟩⟩, hdim⟩ := h
      exact ⟨y, m, d, hs, hyd, hyl, hy1, hmd, hml, hm1, hm12,
        hdd, hdl, hd1, hd31, hdim⟩
    · simp at h
  · rintro ⟨y, m, d, rfl, hyd, hyl, hy1, hmd, hml, hm1, hm12,
      hdd, hdl, hd1, hd31, hdim⟩
    unfold strptimeYmd
    rw [splitOnChar_of_decomp '-' y m d (dash_not_mem_of_allDigits hyd)
      (dash_not_mem_of_allDigits hmd) (dash_not_mem_of_allDigits hdd)]
    simp only [monthTok, dayTok, Bool.and_eq_true, beq_iff_eq,
      decide_eq_true_eq, Bool.or_eq_true]
    exact ⟨⟨⟨⟨⟨hyd, hyl⟩, hy1⟩, ⟨⟨⟨hmd, hml⟩, hm1⟩, hm12⟩⟩,
      ⟨⟨⟨hdd, hdl⟩, hd1⟩, hd31⟩⟩, hdim⟩

/-! ## Claim theorems -/

/-- A concrete ledger state used by the witnesses: the unit tests'
empty, non-persisting handler. -/
def testDH : DataHandler :=
  { autosave := false, incomes := [], expenses := [], files_loaded := true }

/-- C1: for every source that is non-blank after trimming and every
amount ≥ 0, `add_income` appends exactly one record equal to
`{source, amount}` (earlier records and the expense sequence unchanged,
as the full-state equality shows) and `total_income` increases by
exactly the amount; for every valid expense input, `add_expense` appends
exactly one record whose date field is the parsed/normalised date and
`total_expenses` increases by exactly the amount. -/
theorem C1_add_appends_one_record (dh : DataHandler) (s : String) (a : ℚ)
    (today desc cat dt : String) (b : ℚ)
    (hs : pyStrip s ≠ "") (ha : 0 ≤ a)
    (hd : pyStrip desc ≠ "") (hc : pyStrip cat ≠ "") (hb : 0 ≤ b)
    (d : String) (hdt : parse_date today dt = Except.ok d) :
    add_income dh s a = Except.ok
      { dh with incomes := dh.incomes ++ [{ source := s, amount := a }] } ∧
    total_income { dh with incomes := dh.incomes ++ [{ source := s, amount := a }] }
      = total_income dh + a ∧
    add_expense today dh desc cat b dt = Except.ok
      { dh with expenses := dh.expenses ++
        [{ description := desc, category := cat, amount := b, date := d }] } ∧
    total_expenses { dh with expenses := dh.expenses ++
        [{ description := desc, category := cat, amount := b, date := d }] }
      = total_expenses dh + b := by
  refine ⟨?_, ?_, ?_, ?_⟩
  · unfold add_income
    rw [if_neg (not_lt.mpr ha), if_neg hs]
  · simp [total_income, List.foldl_append]
  · unfold add_expense
    rw [if_neg hc, if_neg hd, if_neg (not_lt.mpr hb), hdt]
  · simp [total_expenses, List.foldl_append]

/-- Witness for C1 at the unit tests' inputs. -/
theorem C1_witness :
    add_income testDH "job" 1123 = Except.ok
      { testDH with incomes := testDH.incomes ++ [{ source := "job", amount := 1123 }] } ∧
    total_income { testDH with incomes := testDH.incomes ++ [{ source := "job", amount := 1123 }] }
      = total_income testDH + 1123 ∧
    add_expense "2026-10-12" testDH "car lease" "transportation" 500 "2024-01-20" = Except.ok
      { testDH with expenses := testDH.expenses ++
        [{ description := "car lease", category := "transportation",
           amount := 500, date := "2024-01-20" }] } ∧
    total_expenses { testDH with expenses := testDH.expenses ++
        [{ description := "car lease", category := "transportation",
           amount := 500, date := "2024-01-20" }] }
      = total_expenses testDH + 500 :=
  C1_add_appends_one_record testDH "job" 1123 "2026-10-12" "car lease" "transportation"
    "2024-01-20" 500 (by decide) (by decide) (by decide) (by decide) (by decide)
    "2024-01-20" (by rfl)

/-- C2: `add_income` raises exactly when the amount is negative or the
source is blank after trimming; `add_expense` raises exactly when the
description or category is blank, the amount negative, or the date text
unparseable.  In the source each raise precedes the append, so an
erroring call leaves both sequences as they were (in this embedding an
error result carries no new state). -/
theorem C2_validation_iff (dh : DataHandler) (s : String) (a : ℚ)
    (today desc cat dt : String) (b : ℚ) :
    ((∃ e, add_income dh s a = Except.error e) ↔ (a < 0 ∨ pyStrip s = "")) ∧
    ((∃ e, add_expense today dh desc cat b dt = Except.error e) ↔
      (pyStrip desc = "" ∨ pyStrip cat = "" ∨ b < 0 ∨
        ∃ e, parse_date today dt = Except.error e)) := by
  constructor
  · unfold add_income
    by_cases h1 : a < 0 <;> by_cases h2 : pyStrip s = "" <;> simp [h1, h2]
  · unfold add_expense
    by_cases h1 : pyStrip cat = "" <;> by_cases h2 : pyStrip desc = "" <;>
      by_cases h3 : b < 0 <;> cases hp : parse_date today dt <;>
        simp [h1, h2, h3, hp]

/-- C3: `balance` always equals `total_income - total_expenses`, each
total is the sum of the amount field over its sequence, and all three
are 0 on empty sequences. -/
theorem C3_totals (dh : DataHandler) :
    balance dh = total_income dh - total_expenses dh ∧
    total_income dh = (dh.incomes.map IncomeRecord.amount).sum ∧
    total_expenses dh = (dh.expenses.map ExpenseRecord.amount).sum ∧
    (dh.incomes = [] → total_income dh = 0) ∧
    (dh.expenses = [] → total_expenses dh = 0) ∧
    (dh.incomes = [] → dh.expenses = [] → balance dh = 0) := by
  have hi : total_income dh = (dh.incomes.map IncomeRecord.amount).sum := by
    unfold total_income
    rw [foldl_add_eq_sum IncomeRecord.amount dh.incomes 0, zero_add]
  have he : total_expenses dh = (dh.expenses.map ExpenseRecord.amount).sum := by
    unfold total_expenses
    rw [foldl_add_eq_sum ExpenseRecord.amount dh.expenses 0, zero_add]
  refine ⟨rfl, hi, he, ?_, ?_, ?_⟩
  · intro h; rw [hi, h]; simp
  · intro h; rw [he, h]; simp
  · intro h1 h2
    unfold balance
    rw [hi, he, h1, h2]; simp

/-- Witness for C3: on the empty ledger all three aggregates are 0. -/
theorem C3_witness :
    total_income testDH = 0 ∧ total_expenses testDH = 0 ∧ balance testDH = 0 :=
  ⟨(C3_totals testDH).2.2.2.1 rfl, (C3_totals testDH).2.2.2.2.1 rfl,
    (C3_totals testDH).2.2.2.2.2 rfl rfl⟩

/-- C10: the string fields are stored verbatim as passed in, not
trimmed — trimming is applied only in the blank-field checks; the
expense date is the one field stored in parsed/normalised form.  The
witness instantiates this with fields carrying surrounding
whitespace. -/
theorem C10_verbatim_storage (dh : DataHandler) (s : String) (a : ℚ)
    (today desc cat dt : String) (b : ℚ)
    (hs : pyStrip s ≠ "") (ha : 0 ≤ a)
    (hd : pyStrip desc ≠ "") (hc : pyStrip cat ≠ "") (hb : 0 ≤ b)
    (d : String) (hdt : parse_date today dt = Except.ok d) :
    (∃ dh2, add_income dh s a = Except.ok dh2 ∧
      dh2.incomes.getLast? = some { source := s, amount := a }) ∧
    (∃ dh2, add_expense today dh desc cat b dt = Except.ok dh2 ∧
      dh2.expenses.getLast? =
        some { description := desc, category := cat, amount := b, date := d }) := by
  constructor
  · refine ⟨{ dh with incomes := dh.incomes ++ [{ source := s, amount := a }] }, ?_, ?_⟩
    · unfold add_income
      rw [if_neg (not_lt.mpr ha), if_neg hs]
    · simp
  · refine ⟨{ dh with expenses := dh.expenses ++
      [{ description := desc, category := cat, amount := b, date := d }] }, ?_, ?_⟩
    · unfold add_expense
      rw [if_neg hc, if_neg hd, if_neg (not_lt.mpr hb), hdt]
    · simp

/-- Witness for C10: a source with surrounding whitespace is stored
untrimmed, and a date with surrounding whitespace is stored in
normalised (trimmed) form. -/
theorem C10_witness :
    (∃ dh2, add_income testDH " job " 5 = Except.ok dh2 ∧
      dh2.incomes.getLast? = some { source := " job ", amount := 5 }) ∧
    (∃ dh2, add_expense "2026-10-12" testDH " car lease " " transportation "
        3 " 2024-01-20 " = Except.ok dh2 ∧
      dh2.expenses.getLast? = some { description := " car lease ",
                                     category := " transportation ",
                                     amount := 3, date := "2024-01-20" }) :=
  C10_verbatim_storage testDH " job " 5 "2026-10-12" " car lease " " transportation "
    " 2024-01-20 " 3 (by decide) (by decide) (by decide) (by decide) (by decide)
    "2024-01-20" (by rfl)

/-- C4 counterexample: the claim says every input not matching the
4-2-2 digit grouping raises, but "2024-1-5" (grouping 4-1-1) is
accepted by `parse_date` and returned unchanged: CPython's `strptime`
`%m` and `%d` directives accept one- or two-digit fields. -/
theorem C4_counterexample :
    matches422 "2024-1-5" = false ∧
    pyStrip "2024-1-5" = "2024-1-5" ∧
    parse_date "2026-10-12" "2024-1-5" = Except.ok "2024-1-5" :=
  ⟨by rfl, by rfl, by rfl⟩

/-- C4 amended: on input blank after trimming, `parse_date` returns the
supplied current date formatted `YYYY-MM-DD`; otherwise it returns the
trimmed input unchanged (lossless round-trip) exactly when the trimmed
input decomposes as `y-m-d` with an exactly-four-digit year ≥ 1, a one-
or two-digit month valued 1..12, and a one- or two-digit day valid for
that month and year; on every other input it raises a ValidationError
carrying the fixed message identifying the expected format. -/
theorem C4_parse_date_characterization (today text : String) :
    (pyStrip text = "" → parse_date today text = Except.ok today) ∧
    (pyStrip text ≠ "" → Ymd (pyStrip text).data →
      parse_date today text = Except.ok (pyStrip text)) ∧
    (pyStrip text ≠ "" → ¬ Ymd (pyStrip text).data →
      parse_date today text = Except.error dateErrMsg) := by
  refine ⟨?_, ?_, ?_⟩ <;> intro h1 <;> simp only [parse_date]
  · simp [h1]
  · intro h2
    rw [if_neg h1, if_pos ((strptimeYmd_iff_Ymd (pyStrip text).data).mpr h2)]
  · intro h2
    rw [if_neg h1,
      if_neg (fun hb => h2 ((strptimeYmd_iff_Ymd (pyStrip text).data).mp hb))]

/-- Witness for C4: blank input yields the current date; a whitespace-
padded leap-day date round-trips trimmed; month 13 raises the fixed
message. -/
theorem C4_witness :
    parse_date "2026-10-12" "  " = Except.ok "2026-10-12" ∧
    parse_date "2026-10-12" " 2024-02-29 " = Except.ok (pyStrip " 2024-02-29 ") ∧
    parse_date "2026-10-12" "2024-13-05" = Except.error dateErrMsg :=
  ⟨(C4_parse_date_characterization "2026-10-12" "  ").1 (by rfl),
   (C4_parse_date_characterization "2026-10-12" " 2024-02-29 ").2.1 (by decide)
     ⟨['2','0','2','4'], ['0','2'], ['2','9'], by decide, by decide, by decide,
       by decide, by decide, by decide, by decide, by decide, by decide,
       by decide, by decide, by decide, by decide⟩,
   (C4_parse_date_characterization "2026-10-12" "2024-13-05").2.2 (by decide)
     (fun hy => absurd
       ((strptimeYmd_iff_Ymd (pyStrip "2024-13-05").data).mpr hy) (by decide))⟩

/-- C5: persisting a ledger and constructing a new handler from the
files just written restores income and expense sequences element-wise
equal to the originals: the JSON file, written whole on save and read
first on load, round-trips both lists verbatim. -/
theorem C5_save_load_roundtrip (dh : DataHandler) (render : ℚ → String)
    (disk : Disk) (h : dh.autosave = true) :
    (DataHandler.init (save_to_file render dh disk) true).incomes = dh.incomes ∧
    (DataHandler.init (save_to_file render dh disk) true).expenses = dh.expenses := by
  rw [init_save_eq dh render disk true h]
  exact ⟨rfl, rfl⟩

/-- A concrete persisting ledger with one income and one expense,
used by witnesses. -/
def saveDH : DataHandler :=
  { autosave := true,
    incomes := [{ source := "job", amount := 1123 }],
    expenses := [{ description := "car lease", category := "transportation",
                   amount := 500, date := "2024-01-20" }],
    files_loaded := true }

/-- Witness for C5 on a ledger with one income and one expense. -/
theorem C5_witness :
    (DataHandler.init (save_to_file (fun _ => "0") saveDH
      { json := none, txt := none }) true).incomes = saveDH.incomes ∧
    (DataHandler.init (save_to_file (fun _ => "0") saveDH
      { json := none, txt := none }) true).expenses = saveDH.expenses :=
  C5_save_load_roundtrip saveDH (fun _ => "0") { json := none, txt := none } rfl

/-- C9 counterexample: the claim says every index outside `0..n-1`,
negative indices included, fails with an out-of-range error and leaves
the sequence unchanged; but deleting at index −1 from a one-record
income list succeeds and removes the record, because Python list
deletion accepts in-range negative indices. -/
theorem C9_counterexample :
    delete_income { autosave := false, incomes := [{ source := "job", amount := 1123 }],
                    expenses := [], files_loaded := true } (-1) =
      Except.ok { autosave := false, incomes := [], expenses := [],
                  files_loaded := true } := by
  rfl

/-- C9 amended: the valid index range is `-n..n-1`.  A non-negative
in-range index removes exactly the record at that zero-based position,
leaving the other records in order and the other sequence untouched; an
in-range negative index `i` likewise removes the record at position
`n+i`; an index outside `-n..n-1` fails with an IndexError, and since
the raise happens before any mutation the sequence is unchanged. -/
theorem C9_delete_semantics (dh : DataHandler) (i : Int) :
    (0 ≤ i → i < dh.incomes.length →
      delete_income dh i =
        Except.ok { dh with incomes := dh.incomes.eraseIdx i.toNat }) ∧
    (i < 0 → 0 ≤ i + dh.incomes.length →
      delete_income dh i =
        Except.ok { dh with incomes := dh.incomes.eraseIdx (i + dh.incomes.length).toNat }) ∧
    ((i + dh.incomes.length < 0 ∨ (dh.incomes.length : Int) ≤ i) →
      delete_income dh i =
        Except.error "IndexError: list assignment index out of range") ∧
    (0 ≤ i → i < dh.expenses.length →
      delete_expense dh i =
        Except.ok { dh with expenses := dh.expenses.eraseIdx i.toNat }) ∧
    (i < 0 → 0 ≤ i + dh.expenses.length →
      delete_expense dh i =
        Except.ok { dh with expenses := dh.expenses.eraseIdx (i + dh.expenses.length).toNat }) ∧
    ((i + dh.expenses.length < 0 ∨ (dh.expenses.length : Int) ≤ i) →
      delete_expense dh i =
        Except.error "IndexError: list assignment index out of range") := by
  obtain ⟨hi1, hi2, hi3⟩ := pyDelete_spec dh.incomes i
  obtain ⟨he1, he2, he3⟩ := pyDelete_spec dh.expenses i
  refine ⟨?_, ?_, ?_, ?_, ?_, ?_⟩
  · intro h1 h2
    unfold delete_income
    rw [hi1 h1 h2, List.eraseIdx_eq_take_drop_succ]
    rfl
  · intro h1 h2
    unfold delete_income
    rw [hi2 h1 h2, List.eraseIdx_eq_take_drop_succ]
    rfl
  · intro h1
    unfold delete_income
    rw [hi3 h1]
    rfl
  · intro h1 h2
    unfold delete_expense
    rw [he1 h1 h2, List.eraseIdx_eq_take_drop_succ]
    rfl
  · intro h1 h2
    unfold delete_expense
    rw [he2 h1 h2, List.eraseIdx_eq_take_drop_succ]
    rfl
  · intro h1
    unfold delete_expense
    rw [he3 h1]
    rfl

/-- Witness for C9: deleting at index 0 from a one-record income list
removes that record; deleting at index 2 fails with IndexError. -/
theorem C9_witness :
    delete_income { autosave := false, incomes := [{ source := "job", amount := 1123 }],
                    expenses := [], files_loaded := true } 0 =
      Except.ok { autosave := false,
                  incomes := ([{ source := "job", amount := 1123 }] :
                    List IncomeRecord).eraseIdx (Int.toNat 0),
                  expenses := [], files_loaded := true } ∧
    delete_income { autosave := false, incomes := [{ source := "job", amount := 1123 }],
                    expenses := [], files_loaded := true } 2 =
      Except.error "IndexError: list assignment index out of range" :=
  ⟨(C9_delete_semantics _ 0).1 (by decide) (by decide),
   (C9_delete_semantics _ 2).2.2.1 (by decide)⟩

/-- The split parts of a line whose tag is neither `Income` nor
`Expense`, or whose field count is wrong for its tag. -/
def badParts : List (List Char) → Bool
  | [] => false
  | tag :: restParts =>
    if tag = "Income".data then restParts.length != 2
    else if tag = "Expense".data then restParts.length != 4
    else true

/-- A non-blank text-file line whose split is bad. -/
def badLine (line : String) : Bool :=
  (pyStrip line != "") && badParts (splitOnChar '|' (pyStrip line).data)

/-- Bad parts make the dispatcher raise, whatever has been accumulated
so far. -/
theorem loadTxtParts_error_of_badParts (acc : List IncomeRecord × List ExpenseRecord)
    (l : String) (parts : List (List Char)) (h : badParts parts = true) :
    ∃ e, loadTxtParts acc l parts = Except.error e := by
  cases parts with
  | nil => simp [badParts] at h
  | cons tag rest =>
    simp only [badParts] at h
    simp only [loadTxtParts]
    by_cases ht1 : tag = "Income".data
    · rw [if_pos ht1] at h ⊢
      rcases rest with _ | ⟨a, _ | ⟨b, _ | ⟨c, t⟩⟩⟩
      · exact ⟨_, rfl⟩
      · exact ⟨_, rfl⟩
      · simp at h
      · exact ⟨_, rfl⟩
    · rw [if_neg ht1] at h ⊢
      by_cases ht2 : tag = "Expense".data
      · rw [if_pos ht2] at h ⊢
        rcases rest with _ | ⟨a, _ | ⟨b, _ | ⟨c, _ | ⟨d, _ | ⟨e5, t⟩⟩⟩⟩⟩
        · exact ⟨_, rfl⟩
        · exact ⟨_, rfl⟩
        · exact ⟨_, rfl⟩
        · exact ⟨_, rfl⟩
        · simp at h
        · exact ⟨_, rfl⟩
      · rw [if_neg ht2]
        exact ⟨_, rfl⟩

/-- A bad line makes the line loader raise. -/
theorem loadTxtLine_error_of_badLine (acc : List IncomeRecord × List ExpenseRecord)
    (line : String) (h : badLine line = true) :
    ∃ e, loadTxtLine acc line = Except.error e := by
  unfold badLine at h
  simp only [Bool.and_eq_true, bne_iff_ne, ne_eq] at h
  obtain ⟨h1, h2⟩ := h
  simp only [loadTxtLine]
  rw [if_neg h1]
  exact loadTxtParts_error_of_badParts acc (pyStrip line) _ h2

/-- C6: construction never raises on load failure: the loader reads the
structured file first, falls back to the line-oriented file exactly when
the structured file is missing or undecodable, a line with an unknown
tag or the wrong field count for its tag makes the line loader fail, and
whenever loading fails for any reason the constructor absorbs the
exception and yields both sequences empty with the load flag false. -/
theorem C6_load_fallback_and_absorb (disk : Disk) (auto : Bool) :
    (∀ e, load_from_file disk = Except.error e →
      DataHandler.init disk auto =
        { autosave := auto, incomes := [], expenses := [], files_loaded := false }) ∧
    (disk.json = none ∨ disk.json = some JsonDoc.malformed →
      ∀ lines, disk.txt = some lines → load_from_file disk = loadTxt lines) ∧
    (∀ f, disk.json = some (JsonDoc.doc f) → load_from_file disk = load_json f) ∧
    (∀ pre acc line suf, loadTxt pre = Except.ok acc → badLine line = true →
      ∃ e, loadTxt (pre ++ line :: suf) = Except.error e) := by
  refine ⟨?_, ?_, ?_, ?_⟩
  · intro e he
    unfold DataHandler.init
    rw [he]
  · rintro (h | h) lines hl <;> unfold load_from_file <;> rw [h, hl]
  · intro f hf
    unfold load_from_file
    rw [hf]
  · intro pre acc line suf hpre hbad
    obtain ⟨e, he⟩ := loadTxtLine_error_of_badLine acc line hbad
    refine ⟨e, ?_⟩
    unfold loadTxt at hpre ⊢
    rw [foldlM_except_append loadTxtLine pre (line :: suf) ([], []), hpre]
    show List.foldlM loadTxtLine acc (line :: suf) = Except.error e
    rw [List.foldlM_cons, he]
    rfl

/-- Witness for C6: a malformed JSON file plus a text file with an
unknown tag yields the empty ledger with the load flag cleared. -/
theorem C6_witness :
    DataHandler.init { json := some JsonDoc.malformed, txt := some ["Foo|1"] } true =
      { autosave := true, incomes := [], expenses := [], files_loaded := false } :=
  (C6_load_fallback_and_absorb
      { json := some JsonDoc.malformed, txt := some ["Foo|1"] } true).1
    "Unknown line format: Foo|1" (by rfl)

/-- C7 counterexample: a structured file that parses and holds one
expense record but lacks the `incomes` key.  The claim predicts the
expense list loads intact with the load flag set; in fact the `KeyError`
from the absent key is not absorbed by the fallback, and the
constructor yields the empty ledger with the flag cleared. -/
theorem C7_counterexample :
    ¬ ((DataHandler.init
        { json := some (JsonDoc.doc
            { incomes := JField.absent,
              expenses := JField.val [{ description := "rent", category := "housing",
                                        amount := 2000, date := "2024-01-01" }] }),
          txt := none } true).files_loaded = true ∧
       (DataHandler.init
        { json := some (JsonDoc.doc
            { incomes := JField.absent,
              expenses := JField.val [{ description := "rent", category := "housing",
                                        amount := 2000, date := "2024-01-01" }] }),
          txt := none } true).expenses =
        [{ description := "rent", category := "housing",
           amount := 2000, date := "2024-01-01" }]) := by
  intro h
  exact absurd h.1 (by decide)

/-- C7 amended: when the structured file parses and a list field is
present but null (falsy), it is treated as the empty list, the other
list's records load intact and the load flag stays set; but when a list
field is absent, the `KeyError` escapes the fallback and the
constructor yields the empty ledger with the load flag cleared. -/
theorem C7_json_field_handling (inc : List IncomeRecord) (ex : List ExpenseRecord)
    (auto : Bool) (txt : Option (List String)) :
    DataHandler.init
        { json := some (JsonDoc.doc { incomes := JField.val inc, expenses := JField.null }),
          txt := txt } auto =
      { autosave := auto, incomes := inc, expenses := [], files_loaded := true } ∧
    DataHandler.init
        { json := some (JsonDoc.doc { incomes := JField.null, expenses := JField.val ex }),
          txt := txt } auto =
      { autosave := auto, incomes := [], expenses := ex, files_loaded := true } ∧
    DataHandler.init
        { json := some (JsonDoc.doc { incomes := JField.absent, expenses := JField.val ex }),
          txt := txt } auto =
      { autosave := auto, incomes := [], expenses := [], files_loaded := false } ∧
    DataHandler.init
        { json := some (JsonDoc.doc { incomes := JField.val inc, expenses := JField.absent }),
          txt := txt } auto =
      { autosave := auto, incomes := [], expenses := [], files_loaded := false } :=
  ⟨rfl, rfl, rfl, rfl⟩

/-- C8 counterexample: loading performs no validation.  A structured
file holding an income record with a blank source and a negative amount
loads successfully (flag set) and the claimed invariant is violated
right after construction. -/
theorem C8_counterexample :
    (DataHandler.init
        { json := some (JsonDoc.doc { incomes := JField.val [{ source := "", amount := -5 }],
                                      expenses := JField.val [] }),
          txt := none } true).files_loaded = true ∧
    ledgerOK (DataHandler.init
        { json := some (JsonDoc.doc { incomes := JField.val [{ source := "", amount := -5 }],
                                      expenses := JField.val [] }),
          txt := none } true) = false := by
  exact ⟨rfl, rfl⟩

/-- Successful `add_income` inverted: the checks passed and the state is
the one-record append. -/
theorem add_income_ok_inv (dh dh2 : DataHandler) (s : String) (a : ℚ)
    (h : add_income dh s a = Except.ok dh2) :
    0 ≤ a ∧ pyStrip s ≠ "" ∧
      dh2 = { dh with incomes := dh.incomes ++ [{ source := s, amount := a }] } := by
  unfold add_income at h
  by_cases h1 : a < 0
  · rw [if_pos h1] at h
    simp at h
  · rw [if_neg h1] at h
    by_cases h2 : pyStrip s = ""
    · rw [if_pos h2] at h
      simp at h
    · rw [if_neg h2] at h
      simp only [Except.ok.injEq] at h
      exact ⟨not_lt.mp h1, h2, h.symm⟩

/-- Successful `add_expense` inverted. -/
theorem add_expense_ok_inv (today : String) (dh dh2 : DataHandler)
    (desc cat : String) (b : ℚ) (dt : String)
    (h : add_expense today dh desc cat b dt = Except.ok dh2) :
    0 ≤ b ∧ pyStrip desc ≠ "" ∧ pyStrip cat ≠ "" ∧
      ∃ d, parse_date today dt = Except.ok d ∧
        dh2 = { dh with expenses := dh.expenses ++
          [{ description := desc, category := cat, amount := b, date := d }] } := by
  unfold add_expense at h
  by_cases h1 : pyStrip cat = ""
  · rw [if_pos h1] at h
    simp at h
  · rw [if_neg h1] at h
    by_cases h2 : pyStrip desc = ""
    · rw [if_pos h2] at h
      simp at h
    · rw [if_neg h2] at h
      by_cases h3 : b < 0
      · rw [if_pos h3] at h
        simp at h
      · rw [if_neg h3] at h
        cases hp : parse_date today dt with
        | error e =>
          rw [hp] at h
          simp at h
        | ok d =>
          rw [hp] at h
          simp only [Except.ok.injEq] at h
          exact ⟨not_lt.mp h3, h2, h1, d, rfl, h.symm⟩

/-- A successful Python deletion keeps only elements of the original
list. -/
theorem pyDelete_ok_subset {α : Type} (xs l : List α) (i : Int)
    (h : pyDelete xs i = Except.ok l) : ∀ x ∈ l, x ∈ xs := by
  obtain ⟨h1, h2, h3⟩ := pyDelete_spec xs i
  by_cases hc : i + xs.length < 0 ∨ (xs.length : Int) ≤ i
  · rw [h3 hc] at h
    exact absurd h (by simp)
  · push_neg at hc
    by_cases hneg : i < 0
    · rw [h2 hneg (by omega)] at h
      simp only [Except.ok.injEq] at h
      subst h
      intro x hx
      rcases List.mem_append.mp hx with hx | hx
      · exact List.take_subset _ _ hx
      · exact List.drop_subset _ _ hx
    · rw [h1 (by omega) (by omega)] at h
      simp only [Except.ok.injEq] at h
      subst h
      intro x hx
      rcases List.mem_append.mp hx with hx | hx
      · exact List.take_subset _ _ hx
      · exact List.drop_subset _ _ hx

/-- C8 amended: the invariant (amount ≥ 0, non-blank required strings,
valid expense dates) is preserved by every successful add and delete
from an invariant state, and by construction from files just written by
`save_to_file` of an invariant state (assuming the environmental current
date is itself a valid date, as `datetime.today()` guarantees); but
construction from arbitrary persisted state performs no validation and
can violate it (see the counterexample). -/
theorem C8_invariant_preservation (dh : DataHandler) (hok : ledgerOK dh = true) :
    (∀ s a dh2, add_income dh s a = Except.ok dh2 → ledgerOK dh2 = true) ∧
    (∀ today desc cat b dt dh2, strptimeYmd today.data = true →
      add_expense today dh desc cat b dt = Except.ok dh2 → ledgerOK dh2 = true) ∧
    (∀ i dh2, delete_income dh i = Except.ok dh2 → ledgerOK dh2 = true) ∧
    (∀ i dh2, delete_expense dh i = Except.ok dh2 → ledgerOK dh2 = true) ∧
    (dh.autosave = true → ∀ render disk auto,
      ledgerOK (DataHandler.init (save_to_file render dh disk) auto) = true) := by
  simp only [ledgerOK, Bool.and_eq_true] at hok
  obtain ⟨hoki, hoke⟩ := hok
  refine ⟨?_, ?_, ?_, ?_, ?_⟩
  · intro s a dh2 h
    obtain ⟨ha, hs, rfl⟩ := add_income_ok_inv dh dh2 s a h
    simp only [ledgerOK, List.all_append, List.all_cons, List.all_nil,
      Bool.and_eq_true, Bool.and_true]
    refine ⟨⟨hoki, ?_⟩, hoke⟩
    simp only [incomeOK, Bool.and_eq_true, decide_eq_true_eq, bne_iff_ne, ne_eq]
    exact ⟨ha, hs⟩
  · intro today desc cat b dt dh2 htoday h
    obtain ⟨hb, hd, hc, d, hpd, rfl⟩ := add_expense_ok_inv today dh dh2 desc cat b dt h
    simp only [ledgerOK, List.all_append, List.all_cons, List.all_nil,
      Bool.and_eq_true, Bool.and_true]
    refine ⟨hoki, hoke, ?_⟩
    simp only [expenseOK, Bool.and_eq_true, decide_eq_true_eq, bne_iff_ne, ne_eq]
    refine ⟨⟨⟨hb, hd⟩, hc⟩, ?_⟩
    rcases parse_date_ok_cases today dt d hpd with rfl | ⟨-, hv⟩
    · exact htoday
    · exact hv
  · intro i dh2 h
    unfold delete_income at h
    cases hp : pyDelete dh.incomes i with
    | error e =>
      rw [hp] at h
      simp [Except.map] at h
    | ok l =>
      rw [hp] at h
      simp only [Except.map, Except.ok.injEq] at h
      subst h
      simp only [ledgerOK, Bool.and_eq_true]
      refine ⟨?_, hoke⟩
      rw [List.all_eq_true] at hoki ⊢
      exact fun x hx => hoki x (pyDelete_ok_subset dh.incomes l i hp x hx)
  · intro i dh2 h
    unfold delete_expense at h
    cases hp : pyDelete dh.expenses i with
    | error e =>
      rw [hp] at h
      simp [Except.map] at h
    | ok l =>
      rw [hp] at h
      simp only [Except.map, Except.ok.injEq] at h
      subst h
      simp only [ledgerOK, Bool.and_eq_true]
      refine ⟨hoki, ?_⟩
      rw [List.all_eq_true] at hoke ⊢
      exact fun x hx => hoke x (pyDelete_ok_subset dh.expenses l i hp x hx)
  · intro hauto render disk auto
    rw [init_save_eq dh render disk auto hauto]
    simp only [ledgerOK, Bool.and_eq_true]
    exact ⟨hoki, hoke⟩

/-- Witness for C8: adding an income to the empty invariant-satisfying
test handler preserves the invariant. -/
theorem C8_witness :
    ledgerOK { testDH with
      incomes := testDH.incomes ++ [{ source := "job", amount := 1123 }] } = true :=
  (C8_invariant_preservation testDH (by rfl)).1 "job" 1123
    { testDH with incomes := testDH.incomes ++ [{ source := "job", amount := 1123 }] }
    (by rfl)

end Assignment7
